import Mathlib

/-!
Verification of the SynapSteward climatecore bounds-alerting engine.

Shallow embedding of `src/climatecore.py`, `src/models.py` and
`src/stream.py`.  Python floats are modelled as rationals (`ℚ`); the
claims only concern order comparisons, which agree with the rational
order on the finite values involved.  Timestamps are modelled as `ℕ`.
-/

namespace ClimateCore

/-- `models.py` `SensorData`: one validated sensor reading. -/
structure SensorData where
  name : String
  device_id : String
  location : String
  value : ℚ
  timestamp : ℕ
deriving DecidableEq, Repr

/-- `models.py` `SensorBounds`: the bounds configured for one sensor. -/
structure SensorBounds where
  sensor : String
  min : ℚ
  max : ℚ
deriving DecidableEq, Repr

/-- `models.py` `Alert`: the published alert event.  The `message`
field defaults to the string literal in the source,
`"Sensor data out of bounds"`. -/
structure Alert where
  message : String := "Sensor data out of bounds"
  sensor_data : SensorData
  sensor_bounds : SensorBounds
deriving DecidableEq, Repr

/-- `climatecore.py` `States`: the global alerting flag. -/
inductive States where
  | NOT_ALERTING
  | ALERTING
deriving DecidableEq, Repr

/-- `config.sensor_bounds`: a Python dict modelled as an
insertion-ordered association list from sensor name to bounds. -/
abbrev BoundsTable := List (String × SensorBounds)

/-- Dict lookup: first (unique) binding for the key. -/
def lookupBounds : BoundsTable → String → Option SensorBounds
  | [], _ => none
  | (k, v) :: rest, s => if k = s then some v else lookupBounds rest s

/-- Dict assignment `config.sensor_bounds[sensor] = bounds`: replace the
existing binding in place, or append a new one. -/
def upsert : BoundsTable → String → SensorBounds → BoundsTable
  | [], k, v => [(k, v)]
  | (k', v') :: rest, k, v =>
      if k' = k then (k, v) :: rest else (k', v') :: upsert rest k v

/-- One entry of a parsed config message: `SensorBounds(sensor=sensor,
**bounds)` either validates to concrete min and max, or raises
`pydantic.ValidationError`. -/
inductive RawBounds where
  | valid (min max : ℚ)
  | invalid
deriving DecidableEq, Repr

/-- `config_listener`, lines 54-62 of `climatecore.py`: iterate over the
entries of one parsed config message, upserting each validated entry.
The `try` block wraps the whole `for` loop, so the first entry that
raises `ValidationError` is caught outside the loop: it and every entry
after it in the same message are dropped. -/
def applyConfigMsg : BoundsTable → List (String × RawBounds) → BoundsTable
  | tbl, [] => tbl
  | tbl, (s, RawBounds.valid mn mx) :: rest =>
      applyConfigMsg (upsert tbl s ⟨s, mn, mx⟩) rest
  | tbl, (_, RawBounds.invalid) :: _ => tbl

/-- The full handling of one parsed config message: the updated table,
paired with whether the message was acknowledged (`msg.ack()` on line 65
runs after the `try`/`except`, hence unconditionally). -/
def processConfigMsg (tbl : BoundsTable) (msg : List (String × RawBounds)) :
    BoundsTable × Bool :=
  (applyConfigMsg tbl msg, true)

/-- One fetched sensor-stream message, as seen by the main loop:
`json.loads(msg.data)` may raise (malformed JSON — note it sits on line
108, before the `try` on line 110), `SensorData(...)` may raise
`pydantic.ValidationError` (schema failure, caught on line 129), or the
reading validates. -/
inductive SensorMsg where
  | malformedJson
  | invalidSchema
  | reading (d : SensorData)
deriving DecidableEq, Repr

/-- Line 120 of `climatecore.py`:
`sensor_data.value < bounds.min or sensor_data.value > bounds.max`. -/
def outOfBounds (b : SensorBounds) (v : ℚ) : Bool :=
  decide (v < b.min) || decide (v > b.max)

/-- Line 121: the alert subject for a sensor. -/
def alertSubject (pfx sensorName : String) : String :=
  pfx ++ "." ++ sensorName

/-- Line 122: a violation alert, with the default message. -/
def violationAlert (d : SensorData) (b : SensorBounds) : Alert :=
  { sensor_data := d, sensor_bounds := b }

/-- Lines 157-160: the per-cycle recovery alert. -/
def backToNormalAlert (d : SensorData) (b : SensorBounds) : Alert :=
  { message := "System back to normal", sensor_data := d, sensor_bounds := b }

/-- The evaluation state accumulated across one batch: the violation
alerts queued for publication (with their subjects), and
`last_sensor_data` — the last reading whose sensor had bounds. -/
structure EvalState where
  alerts : List (String × Alert)
  lastData : Option (SensorData × SensorBounds)
deriving DecidableEq, Repr

/-- The state at the top of each cycle (lines 103-105). -/
def initEval : EvalState := ⟨[], none⟩

/-- Lines 106-132: processing of one fetched message.  `none` models the
uncaught exception from `json.loads`; a schema failure is caught, logged,
and leaves the evaluation state unchanged; a reading for a sensor absent
from the bounds table is skipped by `continue`.  For a reading with
bounds, `last_sensor_data` is set (line 119) before the bounds check. -/
def stepMsg (pfx : String) (tbl : BoundsTable) (st : EvalState) :
    SensorMsg → Option EvalState
  | SensorMsg.malformedJson => none
  | SensorMsg.invalidSchema => some st
  | SensorMsg.reading d =>
    match lookupBounds tbl d.name with
    | none => some st
    | some b =>
      let st1 : EvalState := { st with lastData := some (d, b) }
      if outOfBounds b d.value then
        some { st1 with
                 alerts := st1.alerts ++
                   [(alertSubject pfx d.name, violationAlert d b)] }
      else
        some st1

/-- The batch loop over all fetched messages.  An uncaught exception
aborts the batch (and, in the source, the whole `main` coroutine, since
the enclosing handler only catches `asyncio.TimeoutError`). -/
def processMsgs (pfx : String) (tbl : BoundsTable) (st : EvalState) :
    List SensorMsg → Option EvalState
  | [] => some st
  | m :: rest =>
    match stepMsg pfx tbl st m with
    | none => none
    | some st1 => processMsgs pfx tbl st1 rest

/-- How many of the batch's messages get `msg.ack()`: the ack sits in a
`finally` of the inner `try`, so every message reaching the `try` is
acknowledged — but a message whose `json.loads` raises never reaches it,
and the exception abandons the rest of the batch. -/
def ackedCount : List SensorMsg → ℕ
  | [] => 0
  | SensorMsg.malformedJson :: _ => 0
  | _ :: rest => ackedCount rest + 1

/-- Lines 134-139: loading the persisted state.  A missing state file
(`FileNotFoundError`) yields `State()`, whose `state` field defaults to
`States.ALERTING` (line 36). -/
def loadState : Option States → States
  | some s => s
  | none => States.ALERTING

/-- The externally visible outcome of one non-crashing cycle: the events
published (violations in batch order, then possibly one recovery event)
and the state written to the state file. -/
structure CycleResult where
  events : List (String × Alert)
  newState : States
deriving DecidableEq, Repr

/-- Lines 99-168: one main-loop cycle over a fetched batch.  The new
state is `ALERTING` iff some violation alert was queued (lines 142-145);
if the loaded state was `ALERTING`, the new state is `NOT_ALERTING` and
some reading with known bounds was seen, a single recovery event
carrying `last_sensor_data` is appended (lines 151-165).  `none` models
the crash of the cycle on malformed JSON, in which case no queued
publish coroutine is ever awaited, so no event is emitted. -/
def runCycle (pfx : String) (tbl : BoundsTable) (current : States)
    (msgs : List SensorMsg) : Option CycleResult :=
  match processMsgs pfx tbl initEval msgs with
  | none => none
  | some st =>
    let newState :=
      if st.alerts.length > 0 then States.ALERTING else States.NOT_ALERTING
    match st.lastData with
    | some (d, b) =>
      if current = States.ALERTING ∧ newState = States.NOT_ALERTING then
        some ⟨st.alerts ++ [(alertSubject pfx d.name, backToNormalAlert d b)],
              newState⟩
      else some ⟨st.alerts, newState⟩
    | none => some ⟨st.alerts, newState⟩

/-- Lines 83-85: the startup wait phase, polling successive snapshots of
the shared bounds table until one is non-empty.  `none` models a run in
which every polled snapshot was empty: the engine is still waiting and
the main loop has not started. -/
def waitForConfig : List BoundsTable → Option BoundsTable
  | [] => none
  | t :: rest => if t.isEmpty then waitForConfig rest else some t

/-- Whether a batch message is an out-of-bounds reading for a sensor
with known bounds — exactly the condition under which lines 120-128
queue a violation alert. -/
def isViolation (tbl : BoundsTable) : SensorMsg → Bool
  | SensorMsg.reading d =>
    match lookupBounds tbl d.name with
    | some b => outOfBounds b d.value
    | none => false
  | _ => false

/-- `stream.py` `Stream.get_messages`: one fetched message either
validates against the configured model or raises
`pydantic.ValidationError`. -/
inductive RawMsg (α : Type) where
  | valid (a : α)
  | invalid
deriving DecidableEq, Repr

/-- The loop of `Stream.get_messages` (lines 75-87): a failing message
is logged and `continue` skips both the `response.append` and the
creation of its ack task; a validating message is appended to the
response and its ack task is created.  Accumulators are the response
list and the list of messages whose ack task exists (all of which are
awaited by `asyncio.gather` before the function returns). -/
def getMessagesAux {α : Type} (resp : List α) (acks : List (RawMsg α)) :
    List (RawMsg α) → List α × List (RawMsg α)
  | [] => (resp, acks)
  | RawMsg.invalid :: rest => getMessagesAux resp acks rest
  | RawMsg.valid a :: rest =>
      getMessagesAux (resp ++ [a]) (acks ++ [RawMsg.valid a]) rest

/-- `Stream.get_messages` on a fetched batch: the returned response and
the set of acknowledged messages. -/
def getMessages {α : Type} (ms : List (RawMsg α)) :
    List α × List (RawMsg α) :=
  getMessagesAux [] [] ms

/-- The payload of a validating message. -/
def msgValue {α : Type} : RawMsg α → Option α
  | RawMsg.valid a => some a
  | RawMsg.invalid => none

/-- Whether a message validates against the model. -/
def msgOk {α : Type} : RawMsg α → Bool
  | RawMsg.valid _ => true
  | RawMsg.invalid => false

/-! Concrete data used by counterexamples and witnesses: the bounds
`{min:10, max:20}` for sensor `"S"` from the spec's worked example. -/

/-- Bounds `{min:10, max:20}` for sensor `"S"`. -/
def bS : SensorBounds := ⟨"S", 10, 20⟩

/-- A bounds table holding only sensor `"S"`. -/
def tblS : BoundsTable := [("S", bS)]

/-- A reading for sensor `"S"` with the given value. -/
def rS (v : ℚ) : SensorData := ⟨"S", "dev1", "room", v, 0⟩

/-- A reading for sensor `"X"`, which has no entry in `tblS`. -/
def rX : SensorData := ⟨"X", "dev2", "hall", 15, 0⟩

/-- Claim C1 counterexample: with bounds `{min:10,max:20}` a cycle from
`NOT_ALERTING` on reading `value=25` publishes one violation event and
records `ALERTING`; the next cycle, already `ALERTING`, on reading
`value=30` publishes a further violation event — the code emits one
violation alert per out-of-bounds reading, with no suppression while
alerting, contradicting the claim that the second reading yields no
additional event. -/
theorem violation_repeated_while_alerting :
    runCycle "alerts.climatecore" tblS States.NOT_ALERTING
        [SensorMsg.reading (rS 25)] =
      some ⟨[(alertSubject "alerts.climatecore" "S",
              violationAlert (rS 25) bS)], States.ALERTING⟩ ∧
    runCycle "alerts.climatecore" tblS States.ALERTING
        [SensorMsg.reading (rS 30)] =
      some ⟨[(alertSubject "alerts.climatecore" "S",
              violationAlert (rS 30) bS)], States.ALERTING⟩ := by
  decide

/-- Claim C2 counterexample: a quiet cycle from the `ALERTING` state
emits one recovery event, but its message is `"System back to normal"`,
not `"back to normal"` as claimed. -/
theorem recovery_message_not_back_to_normal :
    runCycle "alerts.climatecore" tblS States.ALERTING
        [SensorMsg.reading (rS 15)] =
      some ⟨[(alertSubject "alerts.climatecore" "S",
              backToNormalAlert (rS 15) bS)], States.NOT_ALERTING⟩ ∧
    (backToNormalAlert (rS 15) bS).message = "System back to normal" ∧
    "System back to normal" ≠ "back to normal" := by
  decide

/-- Claim C5 counterexample: in the config message
`{A: invalid, B: {1,5}}` the invalid entry for `A` aborts the entry
loop, so the valid entry for `B` is never applied — contradicting the
claim that every other entry of the same message is still applied.  The
message is nevertheless acknowledged. -/
theorem invalid_entry_aborts_rest_of_config_msg :
    lookupBounds
        (applyConfigMsg []
          [("A", RawBounds.invalid), ("B", RawBounds.valid 1 5)]) "B" =
      none ∧
    (processConfigMsg []
        [("A", RawBounds.invalid), ("B", RawBounds.valid 1 5)]).2 = true := by
  decide

/-- Claim C6 counterexample: a message whose payload fails JSON parsing
makes the cycle crash (`json.loads` sits before the `try`, and the
enclosing handler only catches `asyncio.TimeoutError`), and that message
is never acknowledged — contradicting the claim that it is acknowledged
and the loop continues. -/
theorem malformed_json_crashes_loop_unacked :
    runCycle "alerts.climatecore" tblS States.ALERTING
        [SensorMsg.malformedJson] = none ∧
    ackedCount [SensorMsg.malformedJson] = 0 := by
  decide

/-- Claim C7 counterexample: a batch holding only a validated reading
for sensor `"X"`, absent from the bounds table, produces no event and is
acknowledged — but the cycle still rewrites the global state from
`ALERTING` to `NOT_ALERTING`, a hysteresis transition, contradicting the
claim that no transition is performed. -/
theorem unknown_sensor_reading_flips_state :
    lookupBounds tblS "X" = none ∧
    runCycle "alerts.climatecore" tblS States.ALERTING
        [SensorMsg.reading rX] = some ⟨[], States.NOT_ALERTING⟩ ∧
    States.NOT_ALERTING ≠ States.ALERTING ∧
    ackedCount [SensorMsg.reading rX] = 1 := by
  decide

/-! Helper lemmas shared by the claim theorems. -/

/-- Only `json.loads` failure raises past the inner handler: every other
message kind makes `stepMsg` succeed. -/
lemma stepMsg_some (pfx : String) (tbl : BoundsTable) (st : EvalState)
    (m : SensorMsg) (h : m ≠ SensorMsg.malformedJson) :
    ∃ st1, stepMsg pfx tbl st m = some st1 := by
  cases m with
  | malformedJson => exact absurd rfl h
  | invalidSchema => exact ⟨st, rfl⟩
  | reading d =>
    cases hl : lookupBounds tbl d.name with
    | none => exact ⟨st, by simp [stepMsg, hl]⟩
    | some b =>
      simp only [stepMsg, hl]
      split
      · exact ⟨_, rfl⟩
      · exact ⟨_, rfl⟩

/-- One message adds one queued violation alert exactly when it is an
out-of-bounds reading with known bounds. -/
lemma stepMsg_alerts_count (pfx : String) (tbl : BoundsTable)
    (st : EvalState) (m : SensorMsg) (h : m ≠ SensorMsg.malformedJson) :
    ∃ st1, stepMsg pfx tbl st m = some st1 ∧
      st1.alerts.length =
        st.alerts.length + (if isViolation tbl m then 1 else 0) := by
  cases m with
  | malformedJson => exact absurd rfl h
  | invalidSchema => exact ⟨st, rfl, by simp [isViolation]⟩
  | reading d =>
    cases hl : lookupBounds tbl d.name with
    | none => exact ⟨st, by simp [stepMsg, hl], by simp [isViolation, hl]⟩
    | some b =>
      cases hob : outOfBounds b d.value with
      | false =>
        exact ⟨{ st with lastData := some (d, b) },
               by simp [stepMsg, hl, hob],
               by simp [isViolation, hl, hob]⟩
      | true =>
        exact ⟨{ alerts := st.alerts ++
                   [(alertSubject pfx d.name, violationAlert d b)],
                 lastData := some (d, b) },
               by simp [stepMsg, hl, hob],
               by simp [isViolation, hl, hob]⟩

/-- Over a batch free of JSON-parse failures, the queued violation
alerts grow by exactly the number of out-of-bounds readings with known
bounds. -/
lemma processMsgs_alerts (pfx : String) (tbl : BoundsTable) :
    ∀ (msgs : List SensorMsg) (st : EvalState),
      SensorMsg.malformedJson ∉ msgs →
      ∃ st1, processMsgs pfx tbl st msgs = some st1 ∧
        st1.alerts.length =
          st.alerts.length + msgs.countP (isViolation tbl) := by
  intro msgs
  induction msgs with
  | nil => exact fun st _ => ⟨st, rfl, by simp⟩
  | cons m rest ih =>
    intro st h
    have hm : m ≠ SensorMsg.malformedJson := fun e => h (e ▸ List.mem_cons_self m rest)
    have hrest : SensorMsg.malformedJson ∉ rest := fun e => h (List.mem_cons_of_mem m e)
    obtain ⟨st1, hs, hlen⟩ := stepMsg_alerts_count pfx tbl st m hm
    obtain ⟨st2, hp, hlen2⟩ := ih st1 hrest
    refine ⟨st2, by simp [processMsgs, hs, hp], ?_⟩
    rw [hlen2, hlen, List.countP_cons]
    omega

/-- A batch containing a JSON-parse failure crashes the cycle. -/
lemma processMsgs_crash (pfx : String) (tbl : BoundsTable) :
    ∀ (msgs : List SensorMsg) (st : EvalState),
      SensorMsg.malformedJson ∈ msgs →
      processMsgs pfx tbl st msgs = none := by
  intro msgs
  induction msgs with
  | nil => intro st h; cases h
  | cons m rest ih =>
    intro st h
    by_cases hm : m = SensorMsg.malformedJson
    · subst hm; rfl
    · have hrest : SensorMsg.malformedJson ∈ rest := by
        cases List.mem_cons.mp h with
        | inl e => exact absurd e.symm hm
        | inr e => exact e
      obtain ⟨st1, hs⟩ := stepMsg_some pfx tbl st m hm
      simp [processMsgs, hs, ih st1 hrest]

/-- Inserting a message whose evaluation step is an identity leaves the
batch evaluation unchanged, provided no earlier message crashes. -/
lemma processMsgs_skip (pfx : String) (tbl : BoundsTable) (m : SensorMsg)
    (hid : ∀ st, stepMsg pfx tbl st m = some st) :
    ∀ (pre : List SensorMsg) (st : EvalState) (post : List SensorMsg),
      SensorMsg.malformedJson ∉ pre →
      processMsgs pfx tbl st (pre ++ m :: post) =
        processMsgs pfx tbl st (pre ++ post) := by
  intro pre
  induction pre with
  | nil => intro st post _; simp [processMsgs, hid st]
  | cons p pre ih =>
    intro st post h
    have hp : p ≠ SensorMsg.malformedJson := fun e => h (e ▸ List.mem_cons_self p pre)
    have hpre : SensorMsg.malformedJson ∉ pre := fun e => h (List.mem_cons_of_mem p e)
    obtain ⟨st1, hs⟩ := stepMsg_some pfx tbl st p hp
    simp [processMsgs, hs, ih st1 post hpre]

/-- Inserting a non-crashing message into a batch with a crash-free
prefix acknowledges exactly one more message. -/
lemma ackedCount_skip (m : SensorMsg) (hm : m ≠ SensorMsg.malformedJson) :
    ∀ (pre : List SensorMsg), SensorMsg.malformedJson ∉ pre →
      ∀ (post : List SensorMsg),
        ackedCount (pre ++ m :: post) = ackedCount (pre ++ post) + 1 := by
  intro pre
  induction pre with
  | nil =>
    intro _ post
    cases m with
    | malformedJson => exact absurd rfl hm
    | invalidSchema => rfl
    | reading d => rfl
  | cons p pre ih =>
    intro h post
    have hp : p ≠ SensorMsg.malformedJson := fun e => h (e ▸ List.mem_cons_self p pre)
    have hpre : SensorMsg.malformedJson ∉ pre := fun e => h (List.mem_cons_of_mem p e)
    cases p with
    | malformedJson => exact absurd rfl hp
    | invalidSchema => simp [ackedCount, ih hpre post]
    | reading d => simp [ackedCount, ih hpre post]

/-- A cycle whose batch queued no violation alert but saw at least one
reading with known bounds, started from the `ALERTING` state, emits
exactly the one global recovery event and writes `NOT_ALERTING`. -/
lemma recovery_cycle (pfx : String) (tbl : BoundsTable)
    (msgs : List SensorMsg) (st : EvalState) (d : SensorData)
    (b : SensorBounds)
    (h1 : processMsgs pfx tbl initEval msgs = some st)
    (h2 : st.alerts = []) (h3 : st.lastData = some (d, b)) :
    runCycle pfx tbl States.ALERTING msgs =
      some ⟨[(alertSubject pfx d.name, backToNormalAlert d b)],
            States.NOT_ALERTING⟩ := by
  unfold runCycle
  rw [h1]
  simp [h2, h3]

/-- Dict assignment for one key never touches the binding of another. -/
lemma lookupBounds_upsert_ne (tbl : BoundsTable) (k : String)
    (v : SensorBounds) (s : String) (h : k ≠ s) :
    lookupBounds (upsert tbl k v) s = lookupBounds tbl s := by
  induction tbl with
  | nil => simp [upsert, lookupBounds, h]
  | cons kv rest ih =>
    obtain ⟨k', v'⟩ := kv
    by_cases hk : k' = k
    · subst hk
      simp [upsert, lookupBounds, h]
    · simp [upsert, lookupBounds, hk, ih]

/-- `upsert` always yields a non-empty table. -/
lemma upsert_ne_nil (tbl : BoundsTable) (k : String) (v : SensorBounds) :
    upsert tbl k v ≠ [] := by
  cases tbl with
  | nil => simp [upsert]
  | cons kv rest =>
    obtain ⟨k', v'⟩ := kv
    by_cases hk : k' = k <;> simp [upsert, hk]

/-- Applying a config message never empties a non-empty table. -/
lemma applyConfigMsg_ne_nil (msg : List (String × RawBounds)) :
    ∀ (tbl : BoundsTable), tbl ≠ [] → applyConfigMsg tbl msg ≠ [] := by
  induction msg with
  | nil => exact fun tbl h => h
  | cons e rest ih =>
    intro tbl h
    obtain ⟨s, rb⟩ := e
    cases rb with
    | valid mn mx => exact ih _ (upsert_ne_nil tbl s ⟨s, mn, mx⟩)
    | invalid => exact h

/-- `outOfBounds` holds exactly on values strictly outside the range. -/
lemma outOfBounds_iff (b : SensorBounds) (v : ℚ) :
    outOfBounds b v = true ↔ (v < b.min ∨ v > b.max) := by
  simp [outOfBounds]

/-- Claim C1 as amended: over any batch free of JSON-parse failures, the
number of violation alerts published equals the number of validated
out-of-bounds readings with known bounds — one violation `AlertEvent`
per such reading, with no suppression from any alerting state (which the
batch evaluation never consults). -/
theorem violation_event_per_out_of_bounds_reading (pfx : String)
    (tbl : BoundsTable) (msgs : List SensorMsg)
    (h : SensorMsg.malformedJson ∉ msgs) :
    ∃ st, processMsgs pfx tbl initEval msgs = some st ∧
      st.alerts.length = msgs.countP (isViolation tbl) := by
  obtain ⟨st1, h1, h2⟩ := processMsgs_alerts pfx tbl msgs initEval h
  exact ⟨st1, h1, by simpa [initEval] using h2⟩

/-- Witness for the amended claim C1: the spec's worked example, the two
out-of-bounds readings 25 and 30 in one batch, yields two queued
violation alerts. -/
theorem violation_event_per_out_of_bounds_reading_witness :
    SensorMsg.malformedJson ∉
        [SensorMsg.reading (rS 25), SensorMsg.reading (rS 30)] ∧
    ∃ st, processMsgs "alerts.climatecore" tblS initEval
        [SensorMsg.reading (rS 25), SensorMsg.reading (rS 30)] = some st ∧
      st.alerts.length =
        [SensorMsg.reading (rS 25),
         SensorMsg.reading (rS 30)].countP (isViolation tblS) :=
  ⟨by decide,
   violation_event_per_out_of_bounds_reading "alerts.climatecore" tblS
     [SensorMsg.reading (rS 25), SensorMsg.reading (rS 30)] (by decide)⟩

/-- Claim C2 as amended: when the loaded global state is `ALERTING` and
a cycle's batch queues no violation alert but contains at least one
validated reading with known bounds, the engine emits exactly one
recovery event whose message is `"System back to normal"`, carrying the
batch's last such reading and its bounds, and writes `NOT_ALERTING` to
the state file. -/
theorem global_recovery_event_on_quiet_cycle (pfx : String)
    (tbl : BoundsTable) (msgs : List SensorMsg) (st : EvalState)
    (d : SensorData) (b : SensorBounds)
    (h1 : processMsgs pfx tbl initEval msgs = some st)
    (h2 : st.alerts = []) (h3 : st.lastData = some (d, b)) :
    runCycle pfx tbl States.ALERTING msgs =
      some ⟨[(alertSubject pfx d.name, backToNormalAlert d b)],
            States.NOT_ALERTING⟩ :=
  recovery_cycle pfx tbl msgs st d b h1 h2 h3

/-- Witness for the amended claim C2: an in-bounds reading of 15 for
sensor `"S"` while `ALERTING` yields the single recovery event. -/
theorem global_recovery_event_on_quiet_cycle_witness :
    processMsgs "alerts.climatecore" tblS initEval
        [SensorMsg.reading (rS 15)] =
      some ⟨[], some (rS 15, bS)⟩ ∧
    (⟨[], some (rS 15, bS)⟩ : EvalState).alerts = [] ∧
    (⟨[], some (rS 15, bS)⟩ : EvalState).lastData = some (rS 15, bS) ∧
    runCycle "alerts.climatecore" tblS States.ALERTING
        [SensorMsg.reading (rS 15)] =
      some ⟨[(alertSubject "alerts.climatecore" (rS 15).name,
              backToNormalAlert (rS 15) bS)], States.NOT_ALERTING⟩ :=
  ⟨by decide, by decide, by decide,
   global_recovery_event_on_quiet_cycle "alerts.climatecore" tblS
     [SensorMsg.reading (rS 15)] ⟨[], some (rS 15, bS)⟩ (rS 15) bS
     (by decide) (by decide) (by decide)⟩

/-- Claim C3: for a validated reading whose sensor has bounds with
`min ≤ max`, a violation alert is queued exactly when the value is
strictly below `min` or strictly above `max`; in particular a value
equal to `min` or to `max` is in-bounds and queues nothing. -/
theorem boundary_values_in_bounds (pfx : String) (tbl : BoundsTable)
    (st : EvalState) (d : SensorData) (b : SensorBounds)
    (hl : lookupBounds tbl d.name = some b) (hmm : b.min ≤ b.max) :
    (stepMsg pfx tbl st (SensorMsg.reading d) =
        some { st with lastData := some (d, b),
                       alerts := st.alerts ++
                         [(alertSubject pfx d.name, violationAlert d b)] }
      ↔ (d.value < b.min ∨ d.value > b.max)) ∧
    ((d.value = b.min ∨ d.value = b.max) →
      stepMsg pfx tbl st (SensorMsg.reading d) =
        some { st with lastData := some (d, b) }) := by
  constructor
  · by_cases hob : outOfBounds b d.value
    · simp [stepMsg, hl, hob, (outOfBounds_iff b d.value).mp hob]
    · have hvb : ¬(d.value < b.min ∨ d.value > b.max) :=
        fun hx => hob ((outOfBounds_iff b d.value).mpr hx)
      simp only [stepMsg, hl, Bool.not_eq_true] at hob ⊢
      simp only [hob, if_false, hvb, iff_false]
      intro hcontra
      have halerts := congrArg
        (fun o => (o.map (fun s => s.alerts.length)).getD 0) hcontra
      simp at halerts
  · intro hv
    have hob : outOfBounds b d.value = false := by
      rcases hv with h | h
      · rw [h]
        simp [outOfBounds, not_lt.mpr hmm]
      · rw [h]
        simp [outOfBounds, not_lt.mpr hmm]
    simp [stepMsg, hl, hob]

/-- Witness for claim C3: sensor `"S"` with bounds `{10, 20}` and the
boundary reading `value = 20`. -/
theorem boundary_values_in_bounds_witness :
    lookupBounds tblS (rS 20).name = some bS ∧ bS.min ≤ bS.max ∧
    ((stepMsg "alerts.climatecore" tblS initEval
          (SensorMsg.reading (rS 20)) =
        some { initEval with lastData := some (rS 20, bS),
                             alerts := initEval.alerts ++
                               [(alertSubject "alerts.climatecore"
                                   (rS 20).name,
                                 violationAlert (rS 20) bS)] }
      ↔ ((rS 20).value < bS.min ∨ (rS 20).value > bS.max)) ∧
    (((rS 20).value = bS.min ∨ (rS 20).value = bS.max) →
      stepMsg "alerts.climatecore" tblS initEval
          (SensorMsg.reading (rS 20)) =
        some { initEval with lastData := some (rS 20, bS) })) :=
  ⟨by decide, by decide,
   boundary_values_in_bounds "alerts.climatecore" tblS initEval (rS 20) bS
     (by decide) (by decide)⟩

/-- Claim C4: applying a config message leaves the bounds of every
sensor it does not list unchanged (upsert semantics). -/
theorem config_upsert_frame (tbl : BoundsTable)
    (msg : List (String × RawBounds)) (s : String)
    (h : s ∉ msg.map Prod.fst) :
    lookupBounds (applyConfigMsg tbl msg) s = lookupBounds tbl s := by
  induction msg generalizing tbl with
  | nil => rfl
  | cons e rest ih =>
    obtain ⟨s', rb⟩ := e
    have hs : s' ≠ s := by
      intro e; exact h (by simp [e])
    have hrest : s ∉ rest.map Prod.fst := by
      intro e; exact h (by simp [e])
    cases rb with
    | valid mn mx =>
      rw [show applyConfigMsg tbl ((s', RawBounds.valid mn mx) :: rest) =
            applyConfigMsg (upsert tbl s' ⟨s', mn, mx⟩) rest from rfl,
          ih _ hrest, lookupBounds_upsert_ne tbl s' ⟨s', mn, mx⟩ s hs]
    | invalid => rfl

/-- Witness for claim C4: seeding `{A:{1,5}, B:{1,5}}` then applying
`{A:{2,6}}` leaves the bounds of `B` untouched. -/
theorem config_upsert_frame_witness :
    "B" ∉ ([("A", RawBounds.valid 2 6)]).map Prod.fst ∧
    lookupBounds
        (applyConfigMsg
          (applyConfigMsg []
            [("A", RawBounds.valid 1 5), ("B", RawBounds.valid 1 5)])
          [("A", RawBounds.valid 2 6)]) "B" =
      lookupBounds
        (applyConfigMsg []
          [("A", RawBounds.valid 1 5), ("B", RawBounds.valid 1 5)]) "B" :=
  ⟨by decide,
   config_upsert_frame
     (applyConfigMsg []
       [("A", RawBounds.valid 1 5), ("B", RawBounds.valid 1 5)])
     [("A", RawBounds.valid 2 6)] "B" (by decide)⟩

/-- Claim C5 as amended: the entries of a parsed config message are
applied in order only up to the first invalid entry — the invalid entry
and every entry after it in the same message are skipped — and the
message is acknowledged regardless. -/
theorem config_entries_applied_until_first_invalid (tbl : BoundsTable)
    (pre : List (String × RawBounds)) (s : String)
    (post : List (String × RawBounds)) :
    applyConfigMsg tbl (pre ++ (s, RawBounds.invalid) :: post) =
      applyConfigMsg tbl pre ∧
    (processConfigMsg tbl (pre ++ (s, RawBounds.invalid) :: post)).2 =
      true := by
  refine ⟨?_, rfl⟩
  induction pre generalizing tbl with
  | nil => rfl
  | cons e rest ih =>
    obtain ⟨s', rb⟩ := e
    cases rb with
    | valid mn mx => exact ih (upsert tbl s' ⟨s', mn, mx⟩)
    | invalid => rfl

/-- Claim C6 as amended: a fetched message that parses as JSON but
fails schema validation is logged, acknowledged, and transparent to the
batch evaluation — the batch behaves exactly as without it, with one
extra acknowledgement — whereas a message whose payload fails JSON
parsing raises past the inner handler: the cycle crashes and that
message is never acknowledged. -/
theorem schema_failure_skipped_acked_malformed_crashes (pfx : String)
    (tbl : BoundsTable) (st : EvalState) (pre post msgs : List SensorMsg)
    (h1 : SensorMsg.malformedJson ∉ pre)
    (h2 : SensorMsg.malformedJson ∈ msgs) :
    processMsgs pfx tbl st (pre ++ SensorMsg.invalidSchema :: post) =
      processMsgs pfx tbl st (pre ++ post) ∧
    ackedCount (pre ++ SensorMsg.invalidSchema :: post) =
      ackedCount (pre ++ post) + 1 ∧
    processMsgs pfx tbl st msgs = none :=
  ⟨processMsgs_skip pfx tbl SensorMsg.invalidSchema (fun _ => rfl)
     pre st post h1,
   ackedCount_skip SensorMsg.invalidSchema (by simp) pre h1 post,
   processMsgs_crash pfx tbl msgs st h2⟩

/-- Witness for the amended claim C6: a schema-invalid message between
two readings for sensor `"S"` is transparent and acknowledged, while a
batch ending in a JSON-parse failure crashes. -/
theorem schema_failure_skipped_acked_malformed_crashes_witness :
    SensorMsg.malformedJson ∉ [SensorMsg.reading (rS 15)] ∧
    SensorMsg.malformedJson ∈
      [SensorMsg.reading (rS 15), SensorMsg.malformedJson] ∧
    (processMsgs "alerts.climatecore" tblS initEval
        ([SensorMsg.reading (rS 15)] ++
          SensorMsg.invalidSchema :: [SensorMsg.reading (rS 25)]) =
      processMsgs "alerts.climatecore" tblS initEval
        ([SensorMsg.reading (rS 15)] ++ [SensorMsg.reading (rS 25)]) ∧
    ackedCount ([SensorMsg.reading (rS 15)] ++
        SensorMsg.invalidSchema :: [SensorMsg.reading (rS 25)]) =
      ackedCount ([SensorMsg.reading (rS 15)] ++
        [SensorMsg.reading (rS 25)]) + 1 ∧
    processMsgs "alerts.climatecore" tblS initEval
        [SensorMsg.reading (rS 15), SensorMsg.malformedJson] = none) :=
  ⟨by decide, by decide,
   schema_failure_skipped_acked_malformed_crashes "alerts.climatecore"
     tblS initEval [SensorMsg.reading (rS 15)] [SensorMsg.reading (rS 25)]
     [SensorMsg.reading (rS 15), SensorMsg.malformedJson]
     (by decide) (by decide)⟩

/-- Claim C7 as amended: a validated reading for a sensor absent from
the bounds table leaves the evaluation state exactly unchanged, is
transparent to the rest of the batch, and is still acknowledged; but its
arrival makes the cycle non-idle, so the global state is rewritten from
the batch outcome — in a batch consisting of that reading alone, a
loaded `ALERTING` state is silently rewritten to `NOT_ALERTING` with no
event. -/
theorem unknown_sensor_reading_ignored_in_evaluation (pfx : String)
    (tbl : BoundsTable) (st st' : EvalState) (d : SensorData)
    (pre post : List SensorMsg)
    (h : lookupBounds tbl d.name = none)
    (hpre : SensorMsg.malformedJson ∉ pre) :
    stepMsg pfx tbl st (SensorMsg.reading d) = some st ∧
    processMsgs pfx tbl st' (pre ++ SensorMsg.reading d :: post) =
      processMsgs pfx tbl st' (pre ++ post) ∧
    ackedCount (pre ++ SensorMsg.reading d :: post) =
      ackedCount (pre ++ post) + 1 ∧
    runCycle pfx tbl States.ALERTING [SensorMsg.reading d] =
      some ⟨[], States.NOT_ALERTING⟩ :=
  ⟨by simp [stepMsg, h],
   processMsgs_skip pfx tbl (SensorMsg.reading d)
     (fun st0 => by simp [stepMsg, h]) pre st' post hpre,
   ackedCount_skip (SensorMsg.reading d) (by simp) pre hpre post,
   by simp [runCycle, processMsgs, stepMsg, h, initEval]⟩

/-- Witness for the amended claim C7: the unknown-sensor reading `rX`
against the table holding only `"S"`. -/
theorem unknown_sensor_reading_ignored_in_evaluation_witness :
    lookupBounds tblS rX.name = none ∧
    SensorMsg.malformedJson ∉ [SensorMsg.reading (rS 15)] ∧
    (stepMsg "alerts.climatecore" tblS initEval (SensorMsg.reading rX) =
      some initEval ∧
    processMsgs "alerts.climatecore" tblS initEval
        ([SensorMsg.reading (rS 15)] ++ SensorMsg.reading rX :: []) =
      processMsgs "alerts.climatecore" tblS initEval
        ([SensorMsg.reading (rS 15)] ++ []) ∧
    ackedCount ([SensorMsg.reading (rS 15)] ++
        SensorMsg.reading rX :: []) =
      ackedCount ([SensorMsg.reading (rS 15)] ++ []) + 1 ∧
    runCycle "alerts.climatecore" tblS States.ALERTING
        [SensorMsg.reading rX] = some ⟨[], States.NOT_ALERTING⟩) :=
  ⟨by decide, by decide,
   unknown_sensor_reading_ignored_in_evaluation "alerts.climatecore"
     tblS initEval initEval rX [SensorMsg.reading (rS 15)] []
     (by decide) (by decide)⟩

/-- Claim C8: the startup wait phase polls successive snapshots of the
bounds table and hands the main loop a table only once one is
non-empty: the table it returns is non-empty, every snapshot it polled
before was empty, and — since config handling only upserts — the table
can never become empty again, so no reading is ever evaluated against an
empty bounds table. -/
theorem wait_phase_nonempty_bounds (snaps : List BoundsTable)
    (tbl : BoundsTable) (h : waitForConfig snaps = some tbl) :
    tbl ≠ [] ∧
    (∀ msg, applyConfigMsg tbl msg ≠ []) ∧
    ∃ pre rest, snaps = pre ++ tbl :: rest ∧
      ∀ t ∈ pre, t = ([] : BoundsTable) := by
  induction snaps with
  | nil => cases h
  | cons t rest ih =>
    by_cases ht : t.isEmpty
    · have h' : waitForConfig rest = some tbl := by
        simpa [waitForConfig, ht] using h
      obtain ⟨h1, h2, pre, rest', he, hall⟩ := ih h'
      refine ⟨h1, h2, t :: pre, rest', by simp [he], ?_⟩
      intro u hu
      cases List.mem_cons.mp hu with
      | inl e => exact e ▸ List.isEmpty_iff.mp ht
      | inr e => exact hall u e
    · have he : t = tbl := by
        have := h
        simp [waitForConfig, ht] at this
        exact this
      subst he
      refine ⟨fun e => ht (by simp [e]), ?_, [], rest, rfl, by simp⟩
      exact fun msg => applyConfigMsg_ne_nil msg t (fun e => ht (by simp [e]))

/-- Witness for claim C8: one empty snapshot followed by the table
holding sensor `"S"`. -/
theorem wait_phase_nonempty_bounds_witness :
    waitForConfig [[], tblS] = some tblS ∧
    (tblS ≠ [] ∧
    (∀ msg, applyConfigMsg tblS msg ≠ []) ∧
    ∃ pre rest, ([[], tblS] : List BoundsTable) = pre ++ tblS :: rest ∧
      ∀ t ∈ pre, t = ([] : BoundsTable)) :=
  ⟨by decide, wait_phase_nonempty_bounds [[], tblS] tblS (by decide)⟩

/-- Claim C9: with no persisted state file the loaded state defaults to
`ALERTING`, so the first cycle whose batch queues no violation alert but
contains a validated reading with known bounds emits a
`"System back to normal"` recovery event — although no violation alert
was ever published in the process's lifetime. -/
theorem default_state_alerting_spurious_recovery (pfx : String)
    (tbl : BoundsTable) (msgs : List SensorMsg) (st : EvalState)
    (d : SensorData) (b : SensorBounds)
    (h1 : processMsgs pfx tbl initEval msgs = some st)
    (h2 : st.alerts = []) (h3 : st.lastData = some (d, b)) :
    loadState none = States.ALERTING ∧
    runCycle pfx tbl (loadState none) msgs =
      some ⟨[(alertSubject pfx d.name, backToNormalAlert d b)],
            States.NOT_ALERTING⟩ :=
  ⟨rfl, recovery_cycle pfx tbl msgs st d b h1 h2 h3⟩

/-- Witness for claim C9: a fresh process (no state file) seeing one
in-bounds reading of 12 for sensor `"S"` emits the spurious recovery
event. -/
theorem default_state_alerting_spurious_recovery_witness :
    processMsgs "alerts.climatecore" tblS initEval
        [SensorMsg.reading (rS 12)] =
      some ⟨[], some (rS 12, bS)⟩ ∧
    (⟨[], some (rS 12, bS)⟩ : EvalState).alerts = [] ∧
    (⟨[], some (rS 12, bS)⟩ : EvalState).lastData = some (rS 12, bS) ∧
    (loadState none = States.ALERTING ∧
    runCycle "alerts.climatecore" tblS (loadState none)
        [SensorMsg.reading (rS 12)] =
      some ⟨[(alertSubject "alerts.climatecore" (rS 12).name,
              backToNormalAlert (rS 12) bS)], States.NOT_ALERTING⟩) :=
  ⟨by decide, by decide, by decide,
   default_state_alerting_spurious_recovery "alerts.climatecore" tblS
     [SensorMsg.reading (rS 12)] ⟨[], some (rS 12, bS)⟩ (rS 12) bS
     (by decide) (by decide) (by decide)⟩

/-- The accumulator form of `Stream.get_messages`: the response collects
the payloads of validating messages in order, and the ack list collects
exactly the validating messages. -/
lemma getMessagesAux_spec {α : Type} (ms : List (RawMsg α)) :
    ∀ (resp : List α) (acks : List (RawMsg α)),
      getMessagesAux resp acks ms =
        (resp ++ ms.filterMap msgValue, acks ++ ms.filter msgOk) := by
  induction ms with
  | nil => intro resp acks; simp [getMessagesAux]
  | cons m rest ih =>
    intro resp acks
    cases m with
    | invalid => simp [getMessagesAux, ih, msgValue, msgOk]
    | valid a => simp [getMessagesAux, ih, msgValue, msgOk]

/-- Claim C10: `Stream.get_messages` omits every validation-failed
message from its response and never creates an ack task for it (so it
stays eligible for redelivery), while every validating message is
returned and acknowledged before the call returns. -/
theorem get_messages_validation_gates_ack {α : Type}
    (ms : List (RawMsg α)) :
    (getMessages ms).1 = ms.filterMap msgValue ∧
    (getMessages ms).2 = ms.filter msgOk ∧
    RawMsg.invalid ∉ (getMessages ms).2 := by
  have h := getMessagesAux_spec ms ([] : List α) ([] : List (RawMsg α))
  refine ⟨by simp [getMessages, h], by simp [getMessages, h], ?_⟩
  simp only [getMessages, h, List.nil_append]
  intro hc
  have := (List.mem_filter.mp hc).2
  simp [msgOk] at this

end ClimateCore
